import Mathlib

set_option linter.unusedVariables false

/-!
Verification development for the deployment post-processing orchestrator
(`src/python/automator.py`).  The Python source is shallowly embedded:
pure helpers become Lean functions over `List Char` strings, and the
side-effecting pipeline becomes a trace-producing function over an explicit
world of external outcomes.  Machine randomness (`secrets.choice`) is
modelled by an explicit choice function, and external process results by
explicit outcome values.
-/

/-- Strings are modelled as lists of characters, matching Python `str`
indexing/slicing semantics used by the source. -/
abbrev Str := List Char

/-- Whitespace characters stripped by Python `str.strip()` (ASCII subset;
the source only ever feeds ASCII configuration text through it). -/
def pySpace (c : Char) : Bool :=
  c = ' ' || c = '\t' || c = '\n' || c = '\r' || c = Char.ofNat 11 || c = Char.ofNat 12

/-- Model of Python `str.lstrip()`. -/
def lstrip (s : Str) : Str := s.dropWhile pySpace

/-- Model of Python `str.rstrip()`. -/
def rstrip (s : Str) : Str := (s.reverse.dropWhile pySpace).reverse

/-- Model of Python `str.strip()`: drop leading and trailing whitespace. -/
def pyStrip (s : Str) : Str := rstrip (lstrip s)

/-- Model of Python `str.lower()` (ASCII range, as used by the source). -/
def lower (s : Str) : Str := s.map Char.toLower

/-- Model of Python `str.startswith(pat)`. -/
def strStarts : Str → Str → Bool
  | _, [] => true
  | [], _ :: _ => false
  | c :: s, p :: ps => c = p && strStarts s ps

/-- Model of Python substring membership `pat in s`. -/
def strHas : Str → Str → Bool
  | [], pat => strStarts [] pat
  | c :: t, pat => strStarts (c :: t) pat || strHas t pat

/-- The single-quote character, written by code point to keep the text plain. -/
def squote : Char := Char.ofNat 39

/-- Model of Python `line.split('=', 1)` guarded by `'=' in line`:
`none` when the line has no `=`, otherwise the parts before and after the
first `=`. -/
def splitFirstEq : Str → Option (Str × Str)
  | [] => none
  | c :: t =>
    if c = '=' then some ([], t)
    else
      match splitFirstEq t with
      | none => none
      | some (k, v) => some (c :: k, v)

/-- The quote test of `parse_env_file` (automator.py lines 232-233):
the value both starts and ends with `"`, or both starts and ends with `'`. -/
def quoteWrapped (v : Str) : Bool :=
  (v.head? = some '"' && v.getLast? = some '"') ||
  (v.head? = some squote && v.getLast? = some squote)

/-- The quote-removal step of `parse_env_file` (line 234): Python `val[1:-1]`
applied exactly when `quoteWrapped` holds. -/
def stripQuotes (v : Str) : Str :=
  if quoteWrapped v then (v.drop 1).dropLast else v

/-- A parsed configuration mapping; Python dict assignment is modelled by
appending and looking up the latest binding. -/
abbrev EnvMap := List (Str × Str)

/-- Model of Python `env_vars[key] = val` (dict update). -/
def envSet (m : EnvMap) (k v : Str) : EnvMap := m ++ [(k, v)]

/-- Model of Python `env_vars.get(key)`: the latest binding of `key`. -/
def envGet (m : EnvMap) (k : Str) : Option Str :=
  (m.reverse.find? (fun kv => decide (kv.1 = k))).map (fun kv => kv.2)

/-- Model of Python `env_vars.get(key, default)`. -/
def envGetD (m : EnvMap) (k d : Str) : Str := (envGet m k).getD d

/-- One iteration of the `for line in f` loop of `parse_env_file`
(automator.py lines 221-236). -/
def parseLine (acc : EnvMap) (rawLine : Str) : EnvMap :=
  let line := pyStrip rawLine
  if line = [] then acc
  else if strStarts line ['#'] then acc
  else
    match splitFirstEq line with
    | none => acc
    | some (k, v) => envSet acc (pyStrip k) (stripQuotes (pyStrip v))

/-- Model of `parse_env_file` (automator.py lines 211-237).  The file input
is `none` when `os.path.exists(path)` is false, otherwise the list of lines. -/
def parse_env_file : Option (List Str) → EnvMap
  | none => []
  | some lines => lines.foldl parseLine []

/-- The fixed separator of the release-layout test (automator.py line 314). -/
def releasesSeg : Str := "/releases/".toList

/-- The part of `s` strictly before the first occurrence of `pat`; this is
`s.split(pat)[0]` in Python, the expression used at automator.py line 317. -/
def beforeFirst : Str → Str → Str
  | [], _ => []
  | c :: t, pat => if strStarts (c :: t) pat then [] else c :: beforeFirst t pat

/-- Root-path resolution of `install_management_tools` (automator.py lines
311-318): `BASE_PATH.split('/releases/')[0]` when the working directory
contains `/releases/`, otherwise the working directory itself. -/
def resolveProjectRoot (basePath : Str) : Str :=
  if strHas basePath releasesSeg then beforeFirst basePath releasesSeg else basePath

/-- A command argument as passed to `runCmd`: a single shell string or an
argument list. -/
inductive PyCmd where
  | strCmd (s : Str)
  | listCmd (args : List Str)
  deriving DecidableEq

/-- Python `str.split()` with no separator: whitespace-separated words,
empty pieces discarded (used by `runCmd` when `shell` is false). -/
def pySplitWs : Str → List Str
  | [] => []
  | c :: t =>
    if pySpace c then pySplitWs t
    else
      match pySplitWs t with
      | [] => [[c]]
      | w :: ws =>
        match t with
        | [] => [[c]]
        | d :: _ => if pySpace d then [c] :: w :: ws else (c :: w) :: ws

/-- The command normalisation of `runCmd` (automator.py lines 26-27):
a string command is tokenised unless `shell` is true. -/
def effectiveCmd (cmd : PyCmd) (shell : Bool) : PyCmd :=
  match cmd with
  | .strCmd s => if !shell then .listCmd (pySplitWs s) else .strCmd s
  | .listCmd l => .listCmd l

/-- The outcome of the `subprocess.run` call inside `runCmd`: either the
call itself raises (unlaunchable executable, I/O error), or the process
completes with an exit status and captured output. -/
inductive LaunchOutcome where
  | launchError (msg : Str)
  | completed (returncode : Int) (stdout stderr : Str)
  deriving DecidableEq

/-- Exceptions that can propagate inside the embedded code. -/
inductive PyErr where
  | fromLaunch (msg : Str)
  | calledProcessError (returncode : Int)
  | osError
  deriving DecidableEq

/-- Decimal rendering of a natural number. -/
def natText (n : Nat) : Str := Nat.toDigits 10 n

/-- Decimal rendering of an integer. -/
def intText : Int → Str
  | .ofNat n => natText n
  | .negSucc n => '-' :: natText (n + 1)

/-- Model of Python `str(e)` for the exceptions of this program. -/
def exnText : PyErr → Str
  | .fromLaunch m => m
  | .calledProcessError rc => "Command returned non-zero exit status ".toList ++ intText rc
  | .osError => "OSError".toList

/-- The result triple returned by `runCmd`. -/
structure CommandResult where
  success : Bool
  stdout : Str
  stderr : Str
  deriving DecidableEq

/-- The `try` block of `runCmd` (automator.py lines 25-40): launch the
process, raise `CalledProcessError` when `check` is set and the exit status
is nonzero, otherwise return the trimmed output. -/
def runCmdTry (launch : LaunchOutcome) (check : Bool) : Except PyErr CommandResult :=
  match launch with
  | .launchError m => .error (.fromLaunch m)
  | .completed rc out err =>
    if check ∧ rc ≠ 0 then .error (.calledProcessError rc)
    else .ok ⟨true, pyStrip out, pyStrip err⟩

/-- Model of the Python command runner (automator.py lines 24-42).  `launch` is the world's
outcome for the `subprocess.run` call on `effectiveCmd cmd shell`; the
catch-all handler converts every raised exception into a failure triple. -/
def runCmd (cmd : PyCmd) (check shell : Bool) (launch : LaunchOutcome) : CommandResult :=
  match runCmdTry launch check with
  | .ok r => r
  | .error e => ⟨false, [], exnText e⟩

/-- Configuration keys probed by the source. -/
def kAPP_KEY : Str := "APP_KEY".toList

def kAPP_DEBUG : Str := "APP_DEBUG".toList

def kAPP_ENV : Str := "APP_ENV".toList

def kAPP_URL : Str := "APP_URL".toList

def kQUEUE_CONNECTION : Str := "QUEUE_CONNECTION".toList

def kSESSION_DRIVER : Str := "SESSION_DRIVER".toList

def kCACHE_DRIVER : Str := "CACHE_DRIVER".toList

def kDB_HOST : Str := "DB_HOST".toList

def kDB_DATABASE : Str := "DB_DATABASE".toList

def kDB_USERNAME : Str := "DB_USERNAME".toList

def kDB_PASSWORD : Str := "DB_PASSWORD".toList

/-- One advisory block emitted by the Environment Auditor, identified by the
rule that produced it. -/
inductive Finding where
  | appKey
  | appDebug
  | appEnv
  | appUrl
  | queueConn
  | sessionDriver
  | cacheDriver
  deriving DecidableEq

/-- Python truthiness test `not env_vars.get('APP_KEY')` (automator.py line
111): true when the key is absent or bound to the empty string. -/
def appKeyMissing (cfg : EnvMap) : Bool :=
  match envGet cfg kAPP_KEY with
  | none => true
  | some v => v = []

/-- The six audit rules of `setup_environment` (automator.py lines 110-174),
in source order.  `keygenOk` is the success flag of the `key:generate`
command run by rule 1; its suggestion block is printed only when that
command succeeds (line 113). -/
def audit (cfg : EnvMap) (keygenOk : Bool) : List Finding :=
  (if appKeyMissing cfg && keygenOk then [Finding.appKey] else []) ++
  (if lower (envGetD cfg kAPP_DEBUG []) = "true".toList then [Finding.appDebug] else []) ++
  (if lower (envGetD cfg kAPP_ENV []) ≠ "production".toList then [Finding.appEnv] else []) ++
  (let url := envGetD cfg kAPP_URL []
   if strHas url "localhost".toList || !strStarts url "http".toList then
     [Finding.appUrl]
   else []) ++
  (if envGetD cfg kQUEUE_CONNECTION [] = "sync".toList then [Finding.queueConn] else []) ++
  (if envGetD cfg kSESSION_DRIVER [] = "array".toList then [Finding.sessionDriver] else []) ++
  (if envGetD cfg kCACHE_DRIVER [] = "array".toList then [Finding.cacheDriver] else [])

/-- Alphabet `string.ascii_lowercase`. -/
def asciiLowercase : Str := "abcdefghijklmnopqrstuvwxyz".toList

/-- Alphabet `string.ascii_letters`. -/
def asciiLetters : Str :=
  asciiLowercase ++ "ABCDEFGHIJKLMNOPQRSTUVWXYZ".toList

/-- Alphabet `string.digits`. -/
def digitChars : Str := "0123456789".toList

/-- Model of `''.join(secrets.choice(alphabet) for _ in range(n))`: the
`choice` function is the stream of random picks, reduced modulo the
alphabet size. -/
def genChoices (alphabet : Str) (n : Nat) (choice : Nat → Nat) : Str :=
  (List.range n).map (fun i => alphabet.getD (choice i % alphabet.length) ' ')

/-- Resolved file-manager credentials (automator.py lines 280-290). -/
structure Creds where
  user : Str
  pass : Str
  generated : Bool
  deriving DecidableEq

/-- Fallback user name of the generated-credentials branch (line 288). -/
def forgeAdminUser : Str := "forge_admin".toList

/-- Credential resolution of `install_management_tools` (automator.py lines
280-290): database credentials from the configuration when both are
non-blank after stripping, otherwise a generated 12-character password. -/
def resolveCreds (cfg : EnvMap) (passChoice : Nat → Nat) : Creds :=
  let tfmUser := pyStrip (envGetD cfg kDB_USERNAME [])
  let tfmPass := pyStrip (envGetD cfg kDB_PASSWORD [])
  if tfmUser = [] ∨ tfmPass = [] then
    ⟨forgeAdminUser, genChoices (asciiLetters ++ digitChars) 12 passChoice, true⟩
  else
    ⟨tfmUser, tfmPass, false⟩

/-- The fixed name marker of provisioned tool directories (line 251). -/
def toolsMarker : Str := "forge-tools-".toList

/-- The banner line of the report (automator.py line 336): a literal of 66
equals signs in the source. -/
def bannerLine : Str := List.replicate 66 '='

/-- The placeholder host used in the report URLs (line 334). -/
def reportHost : Str := "your-site-url".toList

/-- The report block of `install_management_tools` (automator.py lines
336-357), as the list of logged message texts in order. -/
def buildReport (dbHost dbUser toolsDirName : Str) (c : Creds) : List Str :=
  [bannerLine,
   " PROJECT MANAGEMENT TOOLS INSTALLED ".toList,
   bannerLine,
   " Directory: public/".toList ++ toolsDirName,
   [],
   " [DATABASE - ADMINER]".toList,
   " URL:  ".toList ++ reportHost ++ "/".toList ++ toolsDirName ++ "/adminer.php".toList,
   " Host: ".toList ++ dbHost,
   " User: ".toList ++ dbUser,
   " Pass: (Check .env file)".toList,
   [],
   " [FILE MANAGER]".toList,
   " URL:  ".toList ++ reportHost ++ "/".toList ++ toolsDirName ++ "/filemanager.php".toList] ++
  (if c.generated then
    [" User: ".toList ++ c.user,
     " Pass: ".toList ++ c.pass ++ " (Auto-Generated - Save this!)".toList]
   else
    [" User: ".toList ++ c.user ++ " (DB Credentials)".toList,
     " Pass: (Use your DB Password)".toList]) ++
  [bannerLine]

/-- True when some line of the report contains `pat` as a substring. -/
def reportHas (report : List Str) (pat : Str) : Bool :=
  report.any (fun line => strHas line pat)

/-- A directory entry of the public web root, as seen by `os.scandir`:
its name, whether it is a directory, and whether `shutil.rmtree` on it
would succeed (deletion errors are swallowed per entry, lines 261-264). -/
structure Entry where
  name : Str
  isDir : Bool
  rmOk : Bool
  deriving DecidableEq

/-- The entries remaining after the cleanup loop of
`install_management_tools` (automator.py lines 254-266): an entry is
removed exactly when it is a directory, its name starts with the tool
marker, and its deletion succeeds. -/
def cleanupResult (entries : List Entry) : List Entry :=
  entries.filter
    (fun e => !(e.isDir && strStarts e.name toolsMarker && e.rmOk))

/-- One provisioning run at the directory level (lines 249-268): cleanup of
previous tool directories, then creation of the new directory
`forge-tools-<suffix>` (the claimed behaviour assumes this creation
succeeds; the created directory is itself deletable by later runs). -/
def provisionStep (entries : List Entry) (suffix : Str) : List Entry :=
  cleanupResult entries ++ [⟨toolsMarker ++ suffix, true, true⟩]

/-- Successive provisioning runs, one per suffix. -/
def provisionRuns (entries : List Entry) (suffixes : List Str) : List Entry :=
  suffixes.foldl provisionStep entries

/-- Number of directories under the public root whose name starts with the
tool marker. -/
def countToolDirs (entries : List Entry) : Nat :=
  (entries.filter (fun e => e.isDir && strStarts e.name toolsMarker)).length

/-- Log levels of the `log` helper (automator.py lines 14-22). -/
inductive Level where
  | info
  | success
  | warn
  | error
  deriving DecidableEq

/-- The three remediation targets of `fix_permissions` (lines 67-70, 86). -/
inductive Target where
  | storage
  | bootstrapCache
  | publicDir
  deriving DecidableEq

/-- The external commands issued through the command runner. -/
inductive CmdKind where
  | keygen
  | chownCmd (t : Target)
  | chmodDirCmd (t : Target)
  | chmodFileCmd (t : Target)
  | storageLink
  | optimizeClear
  | configCache
  | eventCache
  | routeCache
  | viewCache
  | queueRestart
  | curlAdminer
  | curlFileMgr
  | hashPassword
  deriving DecidableEq

/-- Observable steps of a run, in execution order. -/
inductive Event where
  | log (lv : Level)
  | findingEv (f : Finding)
  | cmdEv (k : CmdKind)
  | mkdirEv (t : Target) (ok : Bool)
  | toolsMkdirEv (name : Str)
  | rmtreeEv (name : Str) (ok : Bool)
  | patchEv (projectRoot : Str)
  | reportLine (s : Str)
  | sysExit (code : Nat)
  deriving DecidableEq

/-- Events classified as permission-remediation steps (the mkdir/chown/chmod
work of `fix_permissions`). -/
def isPermissionEvent : Event → Bool
  | .mkdirEv _ _ => true
  | .cmdEv (.chownCmd _) => true
  | .cmdEv (.chmodDirCmd _) => true
  | .cmdEv (.chmodFileCmd _) => true
  | _ => false

/-- Events classified as optimization steps (the commands of
`optimize_application`). -/
def isOptimizeEvent : Event → Bool
  | .cmdEv .optimizeClear => true
  | .cmdEv .configCache => true
  | .cmdEv .eventCache => true
  | .cmdEv .routeCache => true
  | .cmdEv .viewCache => true
  | .cmdEv .queueRestart => true
  | _ => false

/-- Warning-level log events. -/
def isWarnLog : Event → Bool
  | .log .warn => true
  | _ => false

/-- The chown/chmod/find command sequence plus the success log applied to
one existing target of `fix_permissions` (lines 80-83 and 88-91). -/
def permCmds (t : Target) : List Event :=
  [Event.cmdEv (.chownCmd t), Event.cmdEv (.chmodDirCmd t),
   Event.cmdEv (.chmodFileCmd t), Event.log .success]

/-- One iteration of the writable-directory loop of `fix_permissions`
(lines 72-83): create the directory if absent, `continue` silently when the
creation raises `OSError`, otherwise apply the command sequence. -/
def permTargetEvents (t : Target) (dirExists mkOk : Bool) : List Event :=
  if dirExists then permCmds t
  else Event.mkdirEv t mkOk :: (if mkOk then permCmds t else [])

/-- Model of `fix_permissions` (automator.py lines 54-93) as the trace of
its observable steps: intro log, user-resolution warning when the deploy or
web user is missing, the two writable targets, then the public web root,
which is only processed when it exists and is never created. -/
def fix_permissions (storageEx storageMk cacheEx cacheMk publicEx usersOk : Bool) :
    List Event :=
  [Event.log .info] ++
  (if usersOk then [] else [Event.log .warn]) ++
  permTargetEvents .storage storageEx storageMk ++
  permTargetEvents .bootstrapCache cacheEx cacheMk ++
  (if publicEx then permCmds .publicDir else [])

/-- The key-generation command string (line 112, with the default
`FORGE_PHP` binary). -/
def keygenCmdStr : Str := "php artisan key:generate --show".toList

/-- Model of `setup_environment` (automator.py lines 95-174): when the
configuration file is absent, three error logs and `sys.exit(1)`; otherwise
the audit findings of `audit`, preceded by the `key:generate` invocation
when `APP_KEY` is missing or empty. -/
def setup_environment (envExists : Bool) (envLines : List Str) (keygen : LaunchOutcome) :
    List Event × Option Nat :=
  if envExists then
    let cfg := parse_env_file (some envLines)
    let keygenEv := if appKeyMissing cfg then [Event.cmdEv .keygen] else []
    let kgOk := (runCmd (.strCmd keygenCmdStr) false true keygen).success
    ([Event.log .info] ++ keygenEv ++ (audit cfg kgOk).map Event.findingEv, none)
  else
    ([Event.log .info, Event.log .error, Event.log .error, Event.log .error,
      Event.sysExit 1], some 1)

/-- Model of `optimize_application` (automator.py lines 176-189): the five
cache commands and the queue restart, all non-strict. -/
def optimize_application : List Event :=
  [Event.log .info, Event.cmdEv .optimizeClear, Event.cmdEv .configCache,
   Event.cmdEv .eventCache, Event.cmdEv .routeCache, Event.cmdEv .viewCache,
   Event.cmdEv .queueRestart]

/-- The environment of one run: the state of the file system and the
outcomes of the external operations the script performs.  Choice functions
model the `secrets.choice` streams. -/
structure World where
  basePath : Str
  envExists : Bool
  envLines : List Str
  keygen : LaunchOutcome
  storageExists : Bool
  storageMkdirOk : Bool
  cacheExists : Bool
  cacheMkdirOk : Bool
  publicExists : Bool
  usersExist : Bool
  pubStorageLinked : Bool
  publicEntries : List Entry
  scandirOk : Bool
  toolsMkdirOk : Bool
  tfmDownloaded : Bool
  hashOutcome : LaunchOutcome
  suffixChoice : Nat → Nat
  passChoice : Nat → Nat

/-- Python `tfm_pass.replace(squote, squote backslash squote squote)`
(automator.py line 294). -/
def escapeSquote (s : Str) : Str :=
  s.foldr (fun c acc => (if c = squote then [squote, '\\', squote, squote] else [c]) ++ acc) []

/-- The placeholder hash substituted when the hash command fails (line 299). -/
def placeholderHash : Str := "$2y$10$MixedHashPlaceholder...".toList

/-- Deletion events of the cleanup loop (lines 258-264): one `rmtree` per
directory entry whose name starts with the tool marker. -/
def cleanupEvents (entries : List Entry) : List Event :=
  (entries.filter (fun e => e.isDir && strStarts e.name toolsMarker)).map
    (fun e => Event.rmtreeEv e.name e.rmOk)

/-- Model of `install_management_tools` (automator.py lines 239-357).
The cleanup loop swallows its errors; the subsequent
`os.makedirs(tools_path, exist_ok=True)` at line 268 is not guarded, so its
failure raises `OSError` out of the function.  File reads of the guarded
configuration and payload files are modelled as succeeding. -/
def install_management_tools (w : World) : List Event × Option PyErr :=
  let cfg := parse_env_file (if w.envExists then some w.envLines else none)
  let suffix := genChoices (asciiLowercase ++ digitChars) 6 w.suffixChoice
  let toolsDirName := toolsMarker ++ suffix
  let evPre := [Event.log .info] ++
    (if w.publicExists && w.scandirOk then cleanupEvents w.publicEntries else [])
  if !w.toolsMkdirOk then (evPre, some PyErr.osError)
  else
    let creds := resolveCreds cfg w.passChoice
    let hashRes :=
      runCmd (.strCmd (escapeSquote creds.pass)) false true w.hashOutcome
    let tfmHash :=
      if !hashRes.success || hashRes.stdout = [] then placeholderHash else hashRes.stdout
    let evMid :=
      [Event.toolsMkdirEv toolsDirName, Event.cmdEv .curlAdminer, Event.cmdEv .curlFileMgr] ++
      (if creds.generated then [Event.log .warn] else []) ++
      [Event.cmdEv .hashPassword] ++
      (if w.tfmDownloaded then [Event.patchEv (resolveProjectRoot w.basePath)] else [])
    let dbHost := envGetD cfg kDB_HOST "127.0.0.1".toList
    let dbUser := envGetD cfg kDB_USERNAME []
    let report := buildReport dbHost dbUser toolsDirName creds
    (evPre ++ evMid ++ report.map Event.reportLine, none)

/-- How the whole process ends: normal completion (exit status 0), an
explicit `sys.exit`, or an unhandled exception (Python exits nonzero after
printing a traceback). -/
inductive Outcome where
  | ok
  | exited (code : Nat)
  | raised
  deriving DecidableEq

/-- The process exit status for each outcome. -/
def exitStatus : Outcome → Nat
  | .ok => 0
  | .exited code => code
  | .raised => 1

/-- Model of `main` (automator.py lines 191-209): environment check first
(the one `sys.exit` site), then permission fixes, the storage-link check,
optimization, and tool provisioning.  An error escaping
`install_management_tools` propagates out of `main`. -/
def pyMain (w : World) : List Event × Outcome :=
  let initEv := [Event.log .info]
  match setup_environment w.envExists w.envLines w.keygen with
  | (ev1, some code) => (initEv ++ ev1, .exited code)
  | (ev1, none) =>
    let ev2 := fix_permissions w.storageExists w.storageMkdirOk w.cacheExists
      w.cacheMkdirOk w.publicExists w.usersExist
    let ev3 := if !w.pubStorageLinked then [Event.cmdEv .storageLink] else []
    let ev4 := optimize_application
    match install_management_tools w with
    | (ev5, some _) => (initEv ++ ev1 ++ ev2 ++ ev3 ++ ev4 ++ ev5, .raised)
    | (ev5, none) =>
      (initEv ++ ev1 ++ ev2 ++ ev3 ++ ev4 ++ ev5 ++ [Event.log .success], .ok)

/-- The configuration named by the audit-correctness scenario: exactly
`APP_DEBUG=true`, `APP_ENV=staging`, `QUEUE_CONNECTION=sync`. -/
def auditExampleCfg : EnvMap :=
  [(kAPP_DEBUG, "true".toList), (kAPP_ENV, "staging".toList),
   (kQUEUE_CONNECTION, "sync".toList)]

/-- A configuration whose database username and password are both the same
non-blank word. -/
def dbCredsCfg : EnvMap :=
  [(kDB_USERNAME, "admin".toList), (kDB_PASSWORD, "admin".toList)]

/-- A benign run environment with no configuration file present. -/
def sampleWorldNoEnv : World where
  basePath := "/home/forge/app".toList
  envExists := false
  envLines := []
  keygen := .completed 0 "base64:k".toList []
  storageExists := true
  storageMkdirOk := true
  cacheExists := true
  cacheMkdirOk := true
  publicExists := true
  usersExist := true
  pubStorageLinked := true
  publicEntries := []
  scandirOk := true
  toolsMkdirOk := true
  tfmDownloaded := true
  hashOutcome := .completed 0 "hashed".toList []
  suffixChoice := fun _ => 0
  passChoice := fun _ => 0

/-- The same environment with the configuration file present. -/
def sampleWorldOk : World :=
  { sampleWorldNoEnv with
    envExists := true
    envLines := ["APP_KEY=base64:abc".toList, "APP_ENV=production".toList,
                 "APP_DEBUG=false".toList, "APP_URL=https://example.com".toList,
                 "DB_USERNAME=forge".toList, "DB_PASSWORD=secret".toList] }

/-- The same environment except that creating the tools directory under the
public web root fails (for example, the public directory is not writable). -/
def sampleWorldMkdirFail : World :=
  { sampleWorldOk with toolsMkdirOk := false }

/-! Helper lemmas about the string model. -/

theorem lstrip_cons_of_not_space {c : Char} (t : Str) (h : pySpace c = false) :
    lstrip (c :: t) = c :: t := by
  simp [lstrip, List.dropWhile_cons, h]

theorem lstrip_cons_of_space {c : Char} (t : Str) (h : pySpace c = true) :
    lstrip (c :: t) = lstrip t := by
  simp [lstrip, List.dropWhile_cons, h]

theorem lstrip_length_le (l : Str) : (lstrip l).length ≤ l.length :=
  List.Sublist.length_le (List.dropWhile_sublist pySpace)

theorem rstrip_length_le (l : Str) : (rstrip l).length ≤ l.length := by
  have h := List.Sublist.length_le (List.dropWhile_sublist (l := l.reverse) pySpace)
  simpa [rstrip] using h

theorem lstrip_eq_self_head {a : Char} {t : Str} (h : lstrip (a :: t) = a :: t) :
    pySpace a = false := by
  by_contra hws
  have hws' : pySpace a = true := by
    cases hx : pySpace a
    · exact absurd hx hws
    · rfl
  have h2 : lstrip t = a :: t := by
    rw [lstrip_cons_of_space t hws'] at h
    exact h
  have h3 : (lstrip t).length ≤ t.length := lstrip_length_le t
  rw [h2] at h3
  simp at h3

theorem dropWhile_append_single {c : Char} (l : Str) (h : pySpace c = false) :
    List.dropWhile pySpace (l ++ [c]) = List.dropWhile pySpace l ++ [c] := by
  induction l with
  | nil => simp [List.dropWhile_cons, h]
  | cons a t ih =>
    cases ha : pySpace a with
    | true => simpa [List.dropWhile_cons, ha] using ih
    | false => simp [List.dropWhile_cons, ha]

theorem rstrip_concat_of_not_space {c : Char} (l : Str) (h : pySpace c = false) :
    rstrip (l ++ [c]) = l ++ [c] := by
  simp [rstrip, List.dropWhile_cons, h]

theorem rstrip_concat_of_space {c : Char} (l : Str) (h : pySpace c = true) :
    rstrip (l ++ [c]) = rstrip l := by
  simp [rstrip, List.dropWhile_cons, h]

theorem rstrip_cons_of_not_space {c : Char} (t : Str) (h : pySpace c = false) :
    rstrip (c :: t) = c :: rstrip t := by
  have : (c :: t).reverse = t.reverse ++ [c] := by simp
  rw [rstrip, this, dropWhile_append_single _ h]
  simp [rstrip]

theorem rstrip_eq_self_last {c : Char} {l : Str} (h : rstrip (l ++ [c]) = l ++ [c]) :
    pySpace c = false := by
  cases hx : pySpace c with
  | false => rfl
  | true =>
    have h2 : rstrip l = l ++ [c] := by
      rw [rstrip_concat_of_space l hx] at h
      exact h
    have h3 : (rstrip l).length ≤ l.length := rstrip_length_le l
    rw [h2] at h3
    simp at h3

theorem lstrip_head_not_space {l : Str} {c : Char} (h : (lstrip l).head? = some c) :
    pySpace c = false := by
  induction l with
  | nil => simp [lstrip] at h
  | cons a t ih =>
    cases ha : pySpace a with
    | true =>
      rw [lstrip_cons_of_space t ha] at h
      exact ih h
    | false =>
      rw [lstrip_cons_of_not_space t ha] at h
      simp at h
      rw [← h]
      exact ha

theorem pyStrip_head_eq {l : Str} {c : Char} (h : (lstrip l).head? = some c) :
    (pyStrip l).head? = some c := by
  have hc : pySpace c = false := lstrip_head_not_space h
  cases hl : lstrip l with
  | nil => rw [hl] at h; simp at h
  | cons a t =>
    rw [hl] at h
    simp at h
    subst h
    rw [pyStrip, hl, rstrip_cons_of_not_space t hc]
    simp

theorem splitFirstEq_append {k : Str} (v : Str) (hk : '=' ∉ k) :
    splitFirstEq (k ++ '=' :: v) = some (k, v) := by
  induction k with
  | nil => simp [splitFirstEq]
  | cons a t ih =>
    have ha : a ≠ '=' := by
      intro h
      exact hk (by simp [h])
    have ht : '=' ∉ t := by
      intro h
      exact hk (List.mem_cons_of_mem a h)
    simp only [List.cons_append, splitFirstEq]
    rw [if_neg ha]
    simp only [List.append_eq]
    rw [ih ht]

theorem strStarts_iff_append {s p : Str} : strStarts s p = true ↔ ∃ r, s = p ++ r := by
  induction p generalizing s with
  | nil => simp [strStarts]
  | cons q ps ih =>
    cases s with
    | nil =>
      simp [strStarts]
    | cons c t =>
      simp only [strStarts, Bool.and_eq_true, decide_eq_true_eq, ih, List.cons_append]
      constructor
      · rintro ⟨hc, r, hr⟩
        exact ⟨r, by rw [hc, hr]⟩
      · rintro ⟨r, hr⟩
        simp at hr
        exact ⟨hr.1, r, hr.2⟩

theorem strStarts_single {s : Str} {c : Char} : strStarts s [c] = true ↔ s.head? = some c := by
  cases s with
  | nil => simp [strStarts]
  | cons a t => simp [strStarts]

theorem strStarts_marker (p r : Str) : strStarts (p ++ r) p = true :=
  strStarts_iff_append.mpr ⟨r, rfl⟩

theorem beforeFirst_splits {s pat : Str} (h : strHas s pat = true) :
    ∃ rest, s = beforeFirst s pat ++ pat ++ rest := by
  induction s with
  | nil =>
    cases pat with
    | nil => exact ⟨[], rfl⟩
    | cons q ps => simp [strHas, strStarts] at h
  | cons c t ih =>
    by_cases hs : strStarts (c :: t) pat = true
    · obtain ⟨r, hr⟩ := strStarts_iff_append.mp hs
      refine ⟨r, ?_⟩
      rw [beforeFirst, if_pos hs]
      simpa using hr
    · have ht : strHas t pat = true := by
        have := h
        rw [strHas] at this
        rcases Bool.or_eq_true_iff.mp this with h1 | h2
        · exact absurd h1 hs
        · exact h2
      obtain ⟨rest, hrest⟩ := ih ht
      refine ⟨rest, ?_⟩
      rw [beforeFirst, if_neg hs]
      simp only [List.cons_append, List.append_assoc] at hrest ⊢
      rw [← hrest]

theorem beforeFirst_min {pat : Str} :
    ∀ {s r rest : Str}, s = r ++ pat ++ rest → (beforeFirst s pat).length ≤ r.length := by
  intro s
  induction s with
  | nil => intro r rest h; simp [beforeFirst]
  | cons c t ih =>
    intro r rest h
    by_cases hs : strStarts (c :: t) pat = true
    · rw [beforeFirst, if_pos hs]
      simp
    · cases r with
      | nil =>
        exfalso
        apply hs
        apply strStarts_iff_append.mpr
        exact ⟨rest, by simpa using h⟩
      | cons a r' =>
        simp only [List.cons_append, List.cons.injEq] at h
        rw [beforeFirst, if_neg hs]
        simp only [List.length_cons]
        exact Nat.succ_le_succ (ih (by rw [h.2]))

theorem envGet_set_same (m : EnvMap) (k v : Str) : envGet (envSet m k v) k = some v := by
  simp [envGet, envSet, List.find?_cons_of_pos]

theorem envGet_set_other (m : EnvMap) (k v k' : Str) (h : k' ≠ k) :
    envGet (envSet m k v) k' = envGet m k' := by
  simp only [envGet, envSet, List.reverse_append, List.reverse_cons, List.reverse_nil,
    List.nil_append, List.cons_append]
  rw [List.find?_cons_of_neg]
  simp only [decide_eq_true_eq]
  exact fun hh => h hh.symm

theorem stripQuotes_not_wrapped {v : Str} (h : quoteWrapped v = false) : stripQuotes v = v := by
  simp [stripQuotes, h]

theorem stripQuotes_wrapped (q : Char) (m : Str) (hq : q = '"' ∨ q = squote) :
    stripQuotes (q :: m ++ [q]) = m := by
  have hh : (q :: m ++ [q]).head? = some q := by simp
  have hl : (q :: m ++ [q]).getLast? = some q := by
    rw [show q :: m ++ [q] = (q :: m) ++ [q] from by simp]
    exact List.getLast?_concat _
  have hw : quoteWrapped (q :: m ++ [q]) = true := by
    simp only [quoteWrapped, hh, hl]
    rcases hq with h | h <;> subst h <;> decide
  rw [stripQuotes, if_pos hw]
  simp [List.dropLast_concat]

theorem parse_single_line {k v : Str} (hk : '=' ∉ k) (hlk : lstrip k = k)
    (hrk : rstrip k = k) (hhk : k.head? ≠ some '#') (hlv : lstrip v = v)
    (hrv : rstrip v = v) :
    parse_env_file (some [k ++ '=' :: v]) = [(k, stripQuotes v)] := by
  have hEqNotSpace : pySpace '=' = false := by decide
  have hls : lstrip (k ++ '=' :: v) = k ++ '=' :: v := by
    cases k with
    | nil => simpa using lstrip_cons_of_not_space v hEqNotSpace
    | cons a t =>
      have ha : pySpace a = false := lstrip_eq_self_head hlk
      simpa using lstrip_cons_of_not_space (t ++ '=' :: v) ha
  have hrs : rstrip (k ++ '=' :: v) = k ++ '=' :: v := by
    rcases List.eq_nil_or_concat v with hv | ⟨v', c, hv⟩
    · subst hv
      simpa using rstrip_concat_of_not_space k hEqNotSpace
    · rw [List.concat_eq_append] at hv
      subst hv
      have hc : pySpace c = false := rstrip_eq_self_last hrv
      have hsplit : k ++ '=' :: (v' ++ [c]) = (k ++ '=' :: v') ++ [c] := by simp
      rw [hsplit, rstrip_concat_of_not_space _ hc]
  have hstrip : pyStrip (k ++ '=' :: v) = k ++ '=' :: v := by
    rw [pyStrip, hls, hrs]
  have hkk : pyStrip k = k := by rw [pyStrip, hlk, hrk]
  have hvv : pyStrip v = v := by rw [pyStrip, hlv, hrv]
  have hnum : strStarts (k ++ '=' :: v) ['#'] = false := by
    cases hx : strStarts (k ++ '=' :: v) ['#'] with
    | false => rfl
    | true =>
      exfalso
      have hh := strStarts_single.mp hx
      cases k with
      | nil => simp at hh
      | cons a t =>
        simp at hh
        exact hhk (by simp [hh])
  have h1 : parse_env_file (some [k ++ '=' :: v]) = parseLine [] (k ++ '=' :: v) := rfl
  rw [h1]
  simp only [parseLine, hstrip]
  rw [if_neg (by simp), if_neg (by simp [hnum]), splitFirstEq_append v hk]
  simp [envSet, hkk, hvv]

theorem genChoices_length (alphabet : Str) (n : Nat) (choice : Nat → Nat) :
    (genChoices alphabet n choice).length = n := by
  simp [genChoices]

theorem genChoices_mem {alphabet : Str} (hne : alphabet ≠ []) (n : Nat) (choice : Nat → Nat) :
    ∀ c ∈ genChoices alphabet n choice, c ∈ alphabet := by
  intro c hc
  simp only [genChoices, List.mem_map, List.mem_range] at hc
  obtain ⟨i, _, hceq⟩ := hc
  have hpos : 0 < alphabet.length := List.length_pos.mpr hne
  have hlt : choice i % alphabet.length < alphabet.length := Nat.mod_lt _ hpos
  rw [← hceq, List.getD_eq_getElem?_getD, List.getElem?_eq_getElem hlt]
  simp only [Option.getD_some]
  exact List.getElem_mem hlt

/-! Claim theorems. -/

/-- C3: the Config Reader returns an empty mapping when the file does not
exist; skips lines that are empty after trimming or whose first
non-whitespace character is the comment mark; splits each remaining line
containing an equals sign on the first equals sign only, trimming key and
value; strips exactly one layer of quotes when the trimmed value both
starts and ends with the same quote character (single or double), and
leaves unwrapped values unchanged; and when a key occurs on several lines
it maps the key to the value of the last such line. -/
theorem c3_config_reader_contract :
    parse_env_file none = [] ∧
    (∀ acc l, pyStrip l = [] → parseLine acc l = acc) ∧
    (∀ acc l, (lstrip l).head? = some '#' → parseLine acc l = acc) ∧
    (∀ acc l k v, pyStrip l = k ++ '=' :: v → '=' ∉ k →
      (k ++ '=' :: v).head? ≠ some '#' →
      parseLine acc l = envSet acc (pyStrip k) (stripQuotes (pyStrip v))) ∧
    (∀ q m, (q = '"' ∨ q = squote) → stripQuotes (q :: m ++ [q]) = m) ∧
    (∀ v, quoteWrapped v = false → stripQuotes v = v) ∧
    (∀ m k v, envGet (envSet m k v) k = some v) ∧
    (∀ m k v k', k' ≠ k → envGet (envSet m k v) k' = envGet m k') := by
  refine ⟨rfl, ?_, ?_, ?_, stripQuotes_wrapped, @stripQuotes_not_wrapped,
    envGet_set_same, envGet_set_other⟩
  · intro acc l h
    simp [parseLine, h]
  · intro acc l h
    have h2 := pyStrip_head_eq h
    simp only [parseLine]
    cases hl : pyStrip l with
    | nil => simp
    | cons a t =>
      rw [hl] at h2
      simp only [List.head?_cons, Option.some.injEq] at h2
      subst h2
      simp [strStarts]
  · intro acc l k v h1 h2 h3
    have hnum : strStarts (k ++ '=' :: v) ['#'] = false := by
      cases hx : strStarts (k ++ '=' :: v) ['#'] with
      | false => rfl
      | true => exact absurd (strStarts_single.mp hx) h3
    simp only [parseLine, h1]
    rw [if_neg (by simp), if_neg (by simp [hnum]), splitFirstEq_append v h2]

/-- Witness for C3: the contract applied at concrete lines and maps. -/
theorem c3_config_reader_contract_witness :
    parseLine [] "   ".toList = [] ∧
    parseLine [] "  # note".toList = [] ∧
    parseLine [] "A = 1".toList =
      envSet [] (pyStrip "A ".toList) (stripQuotes (pyStrip " 1".toList)) ∧
    stripQuotes ('"' :: "x".toList ++ ['"']) = "x".toList ∧
    stripQuotes "plain".toList = "plain".toList ∧
    envGet (envSet [("A".toList, "1".toList)] "A".toList "2".toList) "A".toList =
      some "2".toList ∧
    envGet (envSet [("A".toList, "1".toList)] "B".toList "2".toList) "A".toList =
      envGet [("A".toList, "1".toList)] "A".toList :=
  ⟨c3_config_reader_contract.2.1 [] _ (by decide),
   c3_config_reader_contract.2.2.1 [] _ (by decide),
   c3_config_reader_contract.2.2.2.1 [] "A = 1".toList "A ".toList " 1".toList
     (by decide) (by decide) (by decide),
   c3_config_reader_contract.2.2.2.2.1 '"' "x".toList (Or.inl rfl),
   c3_config_reader_contract.2.2.2.2.2.1 "plain".toList (by decide),
   c3_config_reader_contract.2.2.2.2.2.2.1 [("A".toList, "1".toList)] "A".toList "2".toList,
   c3_config_reader_contract.2.2.2.2.2.2.2 [("A".toList, "1".toList)] "B".toList "2".toList
     "A".toList (by decide)⟩

/-- C8 counterexample: the line `K=""a""` parses to the value `"a"`;
serializing that value back as `K="a"` and parsing again yields `a`, a
different value, and the quote-stripping step is not idempotent on the
doubly quoted value. -/
theorem c8_roundtrip_counterexample :
    envGet (parse_env_file (some ["K=\"\"a\"\"".toList])) "K".toList =
      some "\"a\"".toList ∧
    envGet (parse_env_file (some ["K=\"a\"".toList])) "K".toList =
      some "a".toList ∧
    "\"a\"".toList ≠ "a".toList ∧
    stripQuotes (stripQuotes "\"\"a\"\"".toList) ≠ stripQuotes "\"\"a\"\"".toList := by
  exact ⟨by decide, by decide, by decide, by decide⟩

/-- C8 (amended): re-parsing a serialized `KEY=value` line returns the same
value provided the value is already whitespace-trimmed on both sides and is
not itself wrapped in matching quotes (and the key is trimmed, free of
equals signs and does not begin with the comment mark); quote-stripping is
not idempotent in general, so a value that still carries matching outer
quotes after one parse loses another layer on the next parse. -/
theorem c8_roundtrip_stable (k v : Str) (hk : '=' ∉ k) (hlk : lstrip k = k)
    (hrk : rstrip k = k) (hhk : k.head? ≠ some '#') (hlv : lstrip v = v)
    (hrv : rstrip v = v) (hq : quoteWrapped v = false) :
    envGet (parse_env_file (some [k ++ '=' :: v])) k = some v := by
  rw [parse_single_line hk hlk hrk hhk hlv hrv, stripQuotes_not_wrapped hq]
  have h := envGet_set_same [] k v
  simpa [envSet] using h

/-- Witness for C8 at the line `KEY=value`. -/
theorem c8_roundtrip_stable_witness :
    envGet (parse_env_file (some ["KEY".toList ++ '=' :: "value".toList])) "KEY".toList =
      some "value".toList :=
  c8_roundtrip_stable "KEY".toList "value".toList (by decide) (by decide) (by decide)
    (by decide) (by decide) (by decide) (by decide)

/-- C10: a line whose trimmed value is a single quote character (exactly a
double quote or exactly a single quote) is treated as a quoted value and
maps the key to the empty string, because the one-character value both
starts and ends with the same quote character. -/
theorem c10_single_quote_char_value (k : Str) (q : Char) (hk : '=' ∉ k)
    (hlk : lstrip k = k) (hrk : rstrip k = k) (hhk : k.head? ≠ some '#')
    (hq : q = '"' ∨ q = squote) :
    parse_env_file (some [k ++ '=' :: [q]]) = [(k, [])] := by
  have hqs : pySpace q = false := by
    rcases hq with h | h <;> subst h <;> decide
  have h1 : lstrip [q] = [q] := lstrip_cons_of_not_space [] hqs
  have h2 : rstrip [q] = [q] := by
    simpa using rstrip_concat_of_not_space (c := q) [] hqs
  rw [parse_single_line hk hlk hrk hhk h1 h2]
  have h3 : stripQuotes [q] = [] := by
    rcases hq with h | h <;> subst h <;> decide
  rw [h3]

/-- Witness for C10 at the keys `K` and both quote characters. -/
theorem c10_single_quote_char_value_witness :
    parse_env_file (some ["K".toList ++ '=' :: ['"']]) = [("K".toList, [])] ∧
    parse_env_file (some ["K".toList ++ '=' :: [squote]]) = [("K".toList, [])] :=
  ⟨c10_single_quote_char_value "K".toList '"' (by decide) (by decide) (by decide)
     (by decide) (Or.inl rfl),
   c10_single_quote_char_value "K".toList squote (by decide) (by decide) (by decide)
     (by decide) (Or.inr rfl)⟩

/-- C6: for every working-directory path containing the `/releases/`
segment, the computed project root is the portion of the path before the
first such segment (it is followed by the segment, and no shorter prefix
is); for every path not containing the segment, the computed project root
is the working directory itself. -/
theorem c6_root_path_resolution (p : Str) :
    (strHas p releasesSeg = false → resolveProjectRoot p = p) ∧
    (strHas p releasesSeg = true →
      (∃ rest, p = resolveProjectRoot p ++ releasesSeg ++ rest) ∧
      ∀ r rest, p = r ++ releasesSeg ++ rest →
        (resolveProjectRoot p).length ≤ r.length) := by
  constructor
  · intro h
    simp [resolveProjectRoot, h]
  · intro h
    have hroot : resolveProjectRoot p = beforeFirst p releasesSeg := by
      simp [resolveProjectRoot, h]
    rw [hroot]
    exact ⟨beforeFirst_splits h, fun r rest hr => beforeFirst_min hr⟩

/-- Witness for C6: the release layout `/srv/app/releases/20240101120000`
resolves to `/srv/app`, and `/srv/app` resolves to itself. -/
theorem c6_root_path_resolution_witness :
    resolveProjectRoot "/srv/app".toList = "/srv/app".toList ∧
    (∃ rest, "/srv/app/releases/20240101120000".toList =
      resolveProjectRoot "/srv/app/releases/20240101120000".toList ++
        releasesSeg ++ rest) ∧
    resolveProjectRoot "/srv/app/releases/20240101120000".toList = "/srv/app".toList :=
  ⟨(c6_root_path_resolution "/srv/app".toList).1 (by decide),
   ((c6_root_path_resolution "/srv/app/releases/20240101120000".toList).2 (by decide)).1,
   by decide⟩

/-- C4: the command runner never raises to its caller: every exception of
the guarded block is converted to a result with `success` false, empty
stdout and the exception text as stderr; in particular an unlaunchable
command yields its message as stderr, and in strict mode a nonzero exit
status yields a failure result instead of an exception. -/
theorem c4_runCmd_never_raises (cmd : PyCmd) (check shell : Bool)
    (launch : LaunchOutcome) :
    (∀ e, runCmdTry launch check = .error e →
      runCmd cmd check shell launch = ⟨false, [], exnText e⟩) ∧
    (∀ m, launch = .launchError m →
      runCmd cmd check shell launch = ⟨false, [], m⟩) ∧
    (∀ rc out err, launch = .completed rc out err → check = true → rc ≠ 0 →
      (runCmd cmd check shell launch).success = false ∧
      runCmd cmd check shell launch =
        ⟨false, [], exnText (.calledProcessError rc)⟩) := by
  refine ⟨?_, ?_, ?_⟩
  · intro e he
    simp [runCmd, he]
  · intro m hm
    subst hm
    simp [runCmd, runCmdTry, exnText]
  · intro rc out err hl hc hrc
    subst hl
    subst hc
    constructor <;> simp [runCmd, runCmdTry, hrc]

/-- Witness for C4: a failed launch and a strict nonzero exit at concrete
inputs. -/
theorem c4_runCmd_never_raises_witness :
    runCmd (.strCmd "php artisan optimize".toList) true true
      (.launchError "No such file or directory: php".toList) =
      ⟨false, [], "No such file or directory: php".toList⟩ ∧
    runCmd (.strCmd "php artisan optimize".toList) true true
      (.completed 2 "out".toList "err".toList) =
      ⟨false, [], exnText (.calledProcessError 2)⟩ :=
  ⟨(c4_runCmd_never_raises _ true true _).2.1 _ rfl,
   ((c4_runCmd_never_raises _ true true _).2.2 2 "out".toList "err".toList rfl rfl
     (by decide)).2⟩

/-- C2 counterexample: on the configuration containing exactly
`APP_DEBUG=true`, `APP_ENV=staging`, `QUEUE_CONNECTION=sync`, the auditor
also emits an APP_URL finding (the absent `APP_URL` defaults to the empty
string, which does not start with `http`), so the number of findings is
four — five when the key-generation command succeeds — not three. -/
theorem c2_audit_counterexample :
    Finding.appUrl ∈ audit auditExampleCfg false ∧
    Finding.appUrl ∈ audit auditExampleCfg true ∧
    (audit auditExampleCfg false).length = 4 ∧
    (audit auditExampleCfg true).length = 5 := by
  exact ⟨by decide, by decide, by decide, by decide⟩

/-- C2 (amended): on that configuration the auditor emits exactly the
findings debug, env, url and queue (in source order) when the
key-generation command fails, and additionally the APP_KEY suggestion when
it succeeds; it emits no finding for the absent SESSION_DRIVER or
CACHE_DRIVER. -/
theorem c2_audit_findings :
    audit auditExampleCfg false =
      [Finding.appDebug, Finding.appEnv, Finding.appUrl, Finding.queueConn] ∧
    audit auditExampleCfg true =
      [Finding.appKey, Finding.appDebug, Finding.appEnv, Finding.appUrl,
       Finding.queueConn] ∧
    Finding.sessionDriver ∉ audit auditExampleCfg false ∧
    Finding.cacheDriver ∉ audit auditExampleCfg false ∧
    Finding.sessionDriver ∉ audit auditExampleCfg true ∧
    Finding.cacheDriver ∉ audit auditExampleCfg true := by
  exact ⟨by decide, by decide, by decide, by decide, by decide, by decide⟩

/-- C5 (amended): if the stripped database username or password is blank,
the deployment is flagged as generated, the password is exactly 12
characters drawn from ASCII letters and digits and is echoed in full in
the report; if both are non-blank, the credentials are not flagged as
generated, the file-manager password field of the report is the fixed
placeholder text, and the report does not depend on the password value at
all — although the password string may still occur in report text derived
from other fields, such as the username. -/
theorem c5_credential_reporting (cfg : EnvMap) (passChoice : Nat → Nat)
    (host user dir : Str) :
    (pyStrip (envGetD cfg kDB_USERNAME []) = [] ∨
       pyStrip (envGetD cfg kDB_PASSWORD []) = [] →
      (resolveCreds cfg passChoice).generated = true ∧
      (resolveCreds cfg passChoice).pass.length = 12 ∧
      (∀ c ∈ (resolveCreds cfg passChoice).pass, c ∈ asciiLetters ++ digitChars) ∧
      (" Pass: ".toList ++ (resolveCreds cfg passChoice).pass ++
          " (Auto-Generated - Save this!)".toList) ∈
        buildReport host user dir (resolveCreds cfg passChoice)) ∧
    (¬(pyStrip (envGetD cfg kDB_USERNAME []) = [] ∨
        pyStrip (envGetD cfg kDB_PASSWORD []) = []) →
      (resolveCreds cfg passChoice).generated = false ∧
      " Pass: (Use your DB Password)".toList ∈
        buildReport host user dir (resolveCreds cfg passChoice) ∧
      ∀ c : Creds, c.generated = false →
        buildReport host user dir c = buildReport host user dir ⟨c.user, [], false⟩) := by
  constructor
  · intro hblank
    have hcreds : resolveCreds cfg passChoice =
        ⟨forgeAdminUser, genChoices (asciiLetters ++ digitChars) 12 passChoice, true⟩ := by
      rw [resolveCreds, if_pos hblank]
    refine ⟨by rw [hcreds], ?_, ?_, ?_⟩
    · rw [hcreds]
      exact genChoices_length _ 12 passChoice
    · rw [hcreds]
      exact genChoices_mem (by decide) 12 passChoice
    · rw [hcreds]
      simp [buildReport]
  · intro hblank
    have hcreds : resolveCreds cfg passChoice =
        ⟨pyStrip (envGetD cfg kDB_USERNAME []),
         pyStrip (envGetD cfg kDB_PASSWORD []), false⟩ := by
      rw [resolveCreds, if_neg hblank]
    refine ⟨by rw [hcreds], ?_, ?_⟩
    · rw [hcreds]
      simp [buildReport]
    · intro c hc
      simp [buildReport, hc]

/-- Witness for C5: the blank-credential branch on the empty configuration
and the non-blank branch on a configuration with both credentials set. -/
theorem c5_credential_reporting_witness :
    (resolveCreds [] (fun i => i)).generated = true ∧
    (resolveCreds [] (fun i => i)).pass.length = 12 ∧
    (" Pass: ".toList ++ (resolveCreds [] (fun i => i)).pass ++
        " (Auto-Generated - Save this!)".toList) ∈
      buildReport "127.0.0.1".toList [] "forge-tools-abc123".toList
        (resolveCreds [] (fun i => i)) ∧
    (resolveCreds dbCredsCfg (fun i => i)).generated = false :=
  ⟨((c5_credential_reporting [] (fun i => i) "127.0.0.1".toList []
      "forge-tools-abc123".toList).1 (by decide)).1,
   ((c5_credential_reporting [] (fun i => i) "127.0.0.1".toList []
      "forge-tools-abc123".toList).1 (by decide)).2.1,
   ((c5_credential_reporting [] (fun i => i) "127.0.0.1".toList []
      "forge-tools-abc123".toList).1 (by decide)).2.2.2,
   ((c5_credential_reporting dbCredsCfg (fun i => i) "127.0.0.1".toList []
      "forge-tools-abc123".toList).2 (by decide)).1⟩

/-- C5 counterexample: with `DB_USERNAME=admin` and `DB_PASSWORD=admin`,
both non-blank, the credentials are inherited rather than generated, yet
the literal password value `admin` appears in the report text (in the
username line), refuting the claim that the password value never appears
in the report. -/
theorem c5_password_in_report_counterexample :
    (resolveCreds dbCredsCfg (fun _ => 0)).generated = false ∧
    (resolveCreds dbCredsCfg (fun _ => 0)).pass = "admin".toList ∧
    reportHas
      (buildReport (envGetD dbCredsCfg kDB_HOST "127.0.0.1".toList)
        (envGetD dbCredsCfg kDB_USERNAME [])
        (toolsMarker ++ "abc123".toList)
        (resolveCreds dbCredsCfg (fun _ => 0)))
      ((resolveCreds dbCredsCfg (fun _ => 0)).pass) = true := by
  exact ⟨by decide, by decide, by decide⟩

/-- C7 counterexample: in a run where the writable-state directory is
absent and its creation fails, and the public web root is absent, the trace
contains no warning log at all (the failure is skipped silently) and no
creation is ever attempted for the public web root, while the remaining
target is still processed — refuting the claim that every target in the
list is created if absent and that a creation failure causes a logged
warning. -/
theorem c7_permission_counterexample :
    fix_permissions false false true true false true =
      [Event.log .info, Event.mkdirEv .storage false,
       Event.cmdEv (.chownCmd .bootstrapCache),
       Event.cmdEv (.chmodDirCmd .bootstrapCache),
       Event.cmdEv (.chmodFileCmd .bootstrapCache), Event.log .success] ∧
    (∀ e ∈ fix_permissions false false true true false true, isWarnLog e = false) ∧
    (∀ b, Event.mkdirEv .publicDir b ∉ fix_permissions false false true true false true) := by
  exact ⟨by decide, by decide, by decide⟩

/-- C7 (amended): the writable-state and cache directories are created
first if absent, and a creation failure causes that target alone to be
skipped — silently, with no logged warning — never aborting the remaining
targets; the public web root is never created, and is processed only when
it already exists. -/
theorem c7_permission_remediation (sEx sMk cEx cMk pEx uOk : Bool) :
    (sEx = false →
      Event.mkdirEv .storage sMk ∈ fix_permissions sEx sMk cEx cMk pEx uOk) ∧
    (cEx = false →
      Event.mkdirEv .bootstrapCache cMk ∈ fix_permissions sEx sMk cEx cMk pEx uOk) ∧
    (∀ b, Event.mkdirEv .publicDir b ∉ fix_permissions sEx sMk cEx cMk pEx uOk) ∧
    (sEx = false → sMk = false →
      Event.cmdEv (.chownCmd .storage) ∉ fix_permissions sEx sMk cEx cMk pEx uOk) ∧
    (cEx = true →
      Event.cmdEv (.chownCmd .bootstrapCache) ∈ fix_permissions sEx sMk cEx cMk pEx uOk) ∧
    (pEx = true →
      Event.cmdEv (.chownCmd .publicDir) ∈ fix_permissions sEx sMk cEx cMk pEx uOk) ∧
    (pEx = false →
      Event.cmdEv (.chownCmd .publicDir) ∉ fix_permissions sEx sMk cEx cMk pEx uOk) ∧
    (uOk = true → ∀ e ∈ fix_permissions sEx sMk cEx cMk pEx uOk, isWarnLog e = false) := by
  cases sEx <;> cases sMk <;> cases cEx <;> cases cMk <;> cases pEx <;> cases uOk <;> decide

/-- Witness for C7: a run with the storage directory absent but creatable,
the cache directory absent with failing creation, and the public root
present. -/
theorem c7_permission_remediation_witness :
    Event.mkdirEv .storage true ∈ fix_permissions false true false false true true ∧
    Event.mkdirEv .bootstrapCache false ∈ fix_permissions false true false false true true ∧
    Event.cmdEv (.chownCmd .publicDir) ∈ fix_permissions false true false false true true ∧
    (∀ e ∈ fix_permissions false true false false true true, isWarnLog e = false) :=
  ⟨(c7_permission_remediation false true false false true true).1 rfl,
   (c7_permission_remediation false true false false true true).2.1 rfl,
   (c7_permission_remediation false true false false true true).2.2.2.2.2.1 rfl,
   (c7_permission_remediation false true false false true true).2.2.2.2.2.2.2 rfl⟩

theorem provisionStep_count (es : List Entry) (s : Str)
    (hrm : ∀ e ∈ es, e.rmOk = true) : countToolDirs (provisionStep es s) = 1 := by
  rw [provisionStep, countToolDirs, List.filter_append]
  have h1 : List.filter (fun e => e.isDir && strStarts e.name toolsMarker)
      (cleanupResult es) = [] := by
    rw [List.filter_eq_nil_iff]
    intro e he hp
    simp only [cleanupResult, List.mem_filter] at he
    obtain ⟨hes, hsurv⟩ := he
    have hrm' := hrm e hes
    rw [Bool.and_eq_true] at hp
    rw [hp.1, hp.2, hrm'] at hsurv
    simp at hsurv
  rw [h1]
  simp [List.filter, strStarts_marker]

theorem provisionRuns_count : ∀ (suffixes : List Str) (es : List Entry),
    (∀ e ∈ es, e.rmOk = true) → suffixes ≠ [] →
    countToolDirs (provisionRuns es suffixes) = 1 := by
  intro suffixes
  induction suffixes with
  | nil =>
    intro es hrm hne
    exact absurd rfl hne
  | cons s rest ih =>
    intro es hrm hne
    have hstep : ∀ e ∈ provisionStep es s, e.rmOk = true := by
      intro e he
      rw [provisionStep] at he
      rcases List.mem_append.mp he with h | h
      · have hes : e ∈ es := by
          simp only [cleanupResult, List.mem_filter] at h
          exact h.1
        exact hrm e hes
      · simp only [List.mem_singleton] at h
        rw [h]
    cases rest with
    | nil =>
      have hr : provisionRuns es [s] = provisionStep es s := by
        simp [provisionRuns]
      rw [hr]
      exact provisionStep_count es s hrm
    | cons s2 rest2 =>
      have hr : provisionRuns es (s :: s2 :: rest2) =
          provisionRuns (provisionStep es s) (s2 :: rest2) := by
        simp [provisionRuns]
      rw [hr]
      exact ih (provisionStep es s) hstep (by simp)

/-- C9: after any positive number of successive provisioning runs — each
first deleting every directory under the public web root whose name starts
with the fixed marker, then creating one new marker-named directory —
exactly one marker-named directory exists under the public web root,
assuming the deletions and the creation succeed. -/
theorem c9_single_tool_directory (es : List Entry) (suffixes : List Str)
    (hrm : ∀ e ∈ es, e.rmOk = true) (hne : suffixes ≠ []) :
    countToolDirs (provisionRuns es suffixes) = 1 :=
  provisionRuns_count suffixes es hrm hne

/-- Witness for C9: two successive runs over a public root that already
holds one stale tool directory and an unrelated file. -/
theorem c9_single_tool_directory_witness :
    countToolDirs (provisionRuns
      [⟨toolsMarker ++ "old999".toList, true, true⟩,
       ⟨"index.php".toList, false, true⟩]
      ["abc123".toList, "def456".toList]) = 1 :=
  c9_single_tool_directory _ _ (by decide) (by decide)

/-- C1 (amended): if the configuration file is absent, the orchestrator
terminates with exit status 1 before any permission-remediation or
optimization step appears in the trace; if the configuration file exists
and the unguarded creation of the tools directory succeeds, every other
failure is tolerated and the run completes with exit status 0; but if that
unguarded directory creation fails, the `OSError` propagates out of `main`
and the run terminates with a nonzero status even though the configuration
file exists. -/
theorem c1_orchestrator_exit (w : World) :
    (w.envExists = false →
      (pyMain w).2 = Outcome.exited 1 ∧
      exitStatus (pyMain w).2 ≠ 0 ∧
      (pyMain w).1.filter (fun e => isPermissionEvent e || isOptimizeEvent e) = []) ∧
    (w.envExists = true → w.toolsMkdirOk = true →
      (pyMain w).2 = Outcome.ok ∧ exitStatus (pyMain w).2 = 0) ∧
    (w.envExists = true → w.toolsMkdirOk = false →
      (pyMain w).2 = Outcome.raised ∧ exitStatus (pyMain w).2 = 1) := by
  refine ⟨fun h => ?_, fun h ht => ?_, fun h ht => ?_⟩
  · have hpair : pyMain w = ([Event.log .info, Event.log .info, Event.log .error,
        Event.log .error, Event.log .error, Event.sysExit 1], Outcome.exited 1) := by
      simp [pyMain, setup_environment, h]
    rw [hpair]
    exact ⟨rfl, by decide, by decide⟩
  · constructor
    · simp [pyMain, setup_environment, h, install_management_tools, ht]
    · simp [pyMain, setup_environment, h, install_management_tools, ht, exitStatus]
  · constructor
    · simp [pyMain, setup_environment, h, install_management_tools, ht]
    · simp [pyMain, setup_environment, h, install_management_tools, ht, exitStatus]

/-- Witness for C1: the fatal path on a world with no configuration file,
and the zero-exit path on a benign world with one. -/
theorem c1_orchestrator_exit_witness :
    ((pyMain sampleWorldNoEnv).2 = Outcome.exited 1 ∧
      exitStatus (pyMain sampleWorldNoEnv).2 ≠ 0 ∧
      (pyMain sampleWorldNoEnv).1.filter
        (fun e => isPermissionEvent e || isOptimizeEvent e) = []) ∧
    (pyMain sampleWorldOk).2 = Outcome.ok :=
  ⟨(c1_orchestrator_exit sampleWorldNoEnv).1 rfl,
   ((c1_orchestrator_exit sampleWorldOk).2.1 rfl rfl).1⟩

/-- C1 counterexample: a world whose configuration file exists but whose
tools-directory creation fails exits with a nonzero status, refuting the
claim that no code path exits nonzero when the configuration file is
present. -/
theorem c1_nonzero_exit_with_env_present :
    sampleWorldMkdirFail.envExists = true ∧
    (pyMain sampleWorldMkdirFail).2 = Outcome.raised ∧
    exitStatus (pyMain sampleWorldMkdirFail).2 ≠ 0 := by
  exact ⟨rfl, by decide, by decide⟩
